import Mathlib

/-!
Shallow embedding of the `underpants` single-sign-on gateway
(`underpants.go`): the signed session token (HMAC-SHA256 over a
base64url payload), the session cache, the bridge-completion and hub
callback handlers, the logout handler and the reverse-proxy forwarder.

Go strings are byte sequences, so strings are modelled as `List Nat`
with each element a byte value.  Machine words are `Nat` with explicit
`% 2^32` where 32-bit overflow matters.
-/

set_option maxRecDepth 1000000

/-- A Go string / byte slice: a list of byte values. -/
abbrev GoStr := List Nat

/-- Byte list of an ASCII Lean string literal (all literals used in the
program are ASCII, where each character is one byte of the Go string). -/
def goStr (s : String) : GoStr := s.data.map (fun c => c.toNat)

/- ## SHA-256 (crypto/sha256), 32-bit words as Nat mod 2^32 -/

/-- Truncate to a 32-bit word. -/
def w32 (x : Nat) : Nat := x % 4294967296

/-- 32-bit right rotation. -/
def rotw (n x : Nat) : Nat := w32 ((x >>> n) ||| (x <<< (32 - n)))

/-- SHA-256 small sigma 0. -/
def sg0 (x : Nat) : Nat := (rotw 7 x) ^^^ (rotw 18 x) ^^^ (x >>> 3)

/-- SHA-256 small sigma 1. -/
def sg1 (x : Nat) : Nat := (rotw 17 x) ^^^ (rotw 19 x) ^^^ (x >>> 10)

/-- SHA-256 big sigma 0. -/
def sum0 (x : Nat) : Nat := (rotw 2 x) ^^^ (rotw 13 x) ^^^ (rotw 22 x)

/-- SHA-256 big sigma 1. -/
def sum1 (x : Nat) : Nat := (rotw 6 x) ^^^ (rotw 11 x) ^^^ (rotw 25 x)

/-- SHA-256 round constants. -/
def sha256K : List Nat :=
  [1116352408, 1899447441, 3049323471, 3921009573, 961987163,
   1508970993, 2453635748, 2870763221, 3624381080, 310598401,
   607225278, 1426881987, 1925078388, 2162078206, 2614888103,
   3248222580, 3835390401, 4022224774, 264347078, 604807628,
   770255983, 1249150122, 1555081692, 1996064986, 2554220882,
   2821834349, 2952996808, 3210313671, 3336571891, 3584528711,
   113926993, 338241895, 666307205, 773529912, 1294757372,
   1396182291, 1695183700, 1986661051, 2177026350, 2456956037,
   2730485921, 2820302411, 3259730800, 3345764771, 3516065817,
   3600352804, 4094571909, 275423344, 430227734, 506948616,
   659060556, 883997877, 958139571, 1322822218, 1537002063,
   1747873779, 1955562222, 2024104815, 2227730452, 2361852424,
   2428436474, 2756734187, 3204031479, 3329325298]

/-- SHA-256 hash state: eight 32-bit words. -/
structure Sha256St where
  a : Nat
  b : Nat
  c : Nat
  d : Nat
  e : Nat
  f : Nat
  g : Nat
  h : Nat
deriving DecidableEq, Repr

/-- SHA-256 initial hash value. -/
def sha256IV : Sha256St :=
  ⟨1779033703, 3144134277, 1013904242, 2773480762,
   1359893119, 2600822924, 528734635, 1541459225⟩

/-- Big-endian bytes (8 of them) of a 64-bit length value. -/
def be64 (n : Nat) : List Nat :=
  [(n >>> 56) % 256, (n >>> 48) % 256, (n >>> 40) % 256, (n >>> 32) % 256,
   (n >>> 24) % 256, (n >>> 16) % 256, (n >>> 8) % 256, n % 256]

/-- SHA-256 message padding: append 0x80, zeros to 56 mod 64, then the
big-endian 64-bit bit length. -/
def sha256Pad (m : List Nat) : List Nat :=
  m ++ [0x80] ++ List.replicate ((119 - (m.length % 64)) % 64) 0
    ++ be64 (8 * m.length)

/-- Group bytes into big-endian 32-bit words (input length a multiple
of 4). -/
def bytesToWords : List Nat → List Nat
  | a :: b :: c :: d :: rest =>
      (((a * 256 + b) * 256 + c) * 256 + d) :: bytesToWords rest
  | _ => []

/-- Group a word list into blocks of 16 words. -/
def chunk16 : List Nat → List (List Nat)
  | w0 :: w1 :: w2 :: w3 :: w4 :: w5 :: w6 :: w7 ::
    w8 :: w9 :: w10 :: w11 :: w12 :: w13 :: w14 :: w15 :: rest =>
      [w0, w1, w2, w3, w4, w5, w6, w7,
       w8, w9, w10, w11, w12, w13, w14, w15] :: chunk16 rest
  | _ => []

/-- Extend 16 message words to the 64-entry message schedule (runs the
extension step `fuel` times). -/
def sha256Extend (fuel : Nat) (ws : List Nat) : List Nat :=
  match fuel with
  | 0 => ws
  | f + 1 =>
      let n := ws.length
      let w := w32 (sg1 (ws.getD (n - 2) 0) + ws.getD (n - 7) 0 +
                    sg0 (ws.getD (n - 15) 0) + ws.getD (n - 16) 0)
      sha256Extend f (ws ++ [w])

/-- One SHA-256 compression round for round constant `k` and schedule
word `w`. -/
def sha256Round (st : Sha256St) (kw : Nat × Nat) : Sha256St :=
  let t1 := w32 (st.h + sum1 st.e + ((st.e &&& st.f) ^^^ ((w32 (4294967295 - st.e)) &&& st.g)) + kw.1 + kw.2)
  let t2 := w32 (sum0 st.a + ((st.a &&& st.b) ^^^ (st.a &&& st.c) ^^^ (st.b &&& st.c)))
  ⟨w32 (t1 + t2), st.a, st.b, st.c, w32 (st.d + t1), st.e, st.f, st.g⟩

/-- Process one 16-word block. -/
def sha256Block (st : Sha256St) (ws : List Nat) : Sha256St :=
  let sched := sha256Extend 48 ws
  let r := (sha256K.zip sched).foldl sha256Round st
  ⟨w32 (st.a + r.a), w32 (st.b + r.b), w32 (st.c + r.c), w32 (st.d + r.d),
   w32 (st.e + r.e), w32 (st.f + r.f), w32 (st.g + r.g), w32 (st.h + r.h)⟩

/-- Big-endian bytes of a 32-bit word. -/
def wordBytes (n : Nat) : List Nat :=
  [(n >>> 24) % 256, (n >>> 16) % 256, (n >>> 8) % 256, n % 256]

/-- SHA-256 of a byte sequence: 32 digest bytes. -/
def sha256 (m : List Nat) : List Nat :=
  let st := (chunk16 (bytesToWords (sha256Pad m))).foldl sha256Block sha256IV
  wordBytes st.a ++ wordBytes st.b ++ wordBytes st.c ++ wordBytes st.d ++
  wordBytes st.e ++ wordBytes st.f ++ wordBytes st.g ++ wordBytes st.h

/- ## HMAC (crypto/hmac over sha256) -/

/-- HMAC-SHA256 keyed authentication code (`hmac.New(sha256.New, key)`
followed by a write of the message and `Sum`). -/
def hmacSHA256 (key msg : List Nat) : List Nat :=
  let k0 := if key.length > 64 then sha256 key else key
  let kp := k0 ++ List.replicate (64 - k0.length) 0
  let ipad := kp.map (fun b => b ^^^ 0x36)
  let opad := kp.map (fun b => b ^^^ 0x5c)
  sha256 (opad ++ sha256 (ipad ++ msg))

/- ## base64url (encoding/base64, URLEncoding) -/

/-- base64url alphabet: index to character. -/
def b64alpha (n : Nat) : Nat :=
  if n < 26 then 65 + n
  else if n < 52 then 97 + (n - 26)
  else if n < 62 then 48 + (n - 52)
  else if n = 62 then 45
  else 95

/-- base64url alphabet: character to index (`none` when the character is
outside the alphabet). -/
def b64index (c : Nat) : Option Nat :=
  if 65 ≤ c ∧ c ≤ 90 then some (c - 65)
  else if 97 ≤ c ∧ c ≤ 122 then some (26 + (c - 97))
  else if 48 ≤ c ∧ c ≤ 57 then some (52 + (c - 48))
  else if c = 45 then some 62
  else if c = 95 then some 63
  else none

/-- `base64.URLEncoding.EncodeToString`: padded base64url encoding. -/
def b64encode : List Nat → List Nat
  | a :: b :: c :: rest =>
      b64alpha (a >>> 2) :: b64alpha (((a &&& 3) <<< 4) ||| (b >>> 4)) ::
      b64alpha (((b &&& 15) <<< 2) ||| (c >>> 6)) :: b64alpha (c &&& 63) ::
      b64encode rest
  | [a, b] =>
      [b64alpha (a >>> 2), b64alpha (((a &&& 3) <<< 4) ||| (b >>> 4)),
       b64alpha ((b &&& 15) <<< 2), 61]
  | [a] =>
      [b64alpha (a >>> 2), b64alpha ((a &&& 3) <<< 4), 61, 61]
  | [] => []

/-- The output of a streaming `base64.NewEncoder` that is never closed:
only complete 3-byte input groups are emitted; 1 or 2 trailing bytes stay
in the buffer of the encoder and are lost because `Close` is never called
(`user.encode` in the source builds the payload this way). -/
def b64encodeNoClose : List Nat → List Nat
  | a :: b :: c :: rest =>
      b64alpha (a >>> 2) :: b64alpha (((a &&& 3) <<< 4) ||| (b >>> 4)) ::
      b64alpha (((b &&& 15) <<< 2) ||| (c >>> 6)) :: b64alpha (c &&& 63) ::
      b64encodeNoClose rest
  | _ => []

/-- Decode 4-character base64url quanta, allowing padding only in a final
quantum (the corrupt-input error is `none`). -/
def b64decodeQuanta : List Nat → Option (List Nat)
  | [] => some []
  | c1 :: c2 :: c3 :: c4 :: rest =>
      match b64index c1, b64index c2 with
      | some i1, some i2 =>
          if c3 = 61 then
            if c4 = 61 ∧ rest = [] then
              some [(i1 <<< 2) ||| (i2 >>> 4)]
            else none
          else
            match b64index c3 with
            | some i3 =>
                if c4 = 61 then
                  if rest = [] then
                    some [(i1 <<< 2) ||| (i2 >>> 4),
                          ((i2 &&& 15) <<< 4) ||| (i3 >>> 2)]
                  else none
                else
                  match b64index c4 with
                  | some i4 =>
                      match b64decodeQuanta rest with
                      | some bs =>
                          some ([(i1 <<< 2) ||| (i2 >>> 4),
                                 ((i2 &&& 15) <<< 4) ||| (i3 >>> 2),
                                 ((i3 &&& 3) <<< 6) ||| i4] ++ bs)
                      | none => none
                  | none => none
            | none => none
      | _, _ => none
  | _ => none

/-- `base64.URLEncoding.DecodeString`: newlines are ignored, then the
input is decoded in 4-character quanta. -/
def b64decode (s : List Nat) : Option (List Nat) :=
  b64decodeQuanta (s.filter (fun c => c != 13 && c != 10))

/- ## URL query escaping (net/url) -/

/-- Bytes `url.QueryEscape` leaves unescaped: alphanumerics and `-_.~`. -/
def isUnreserved (c : Nat) : Bool :=
  (65 ≤ c && c ≤ 90) || (97 ≤ c && c ≤ 122) || (48 ≤ c && c ≤ 57) ||
  c == 45 || c == 95 || c == 46 || c == 126

/-- Uppercase hexadecimal digit. -/
def hexUpper (n : Nat) : Nat := if n < 10 then 48 + n else 55 + n

/-- `url.QueryEscape`: space becomes `+`, unreserved bytes pass through,
everything else becomes `%XX`. -/
def queryEscape : List Nat → List Nat
  | [] => []
  | c :: rest =>
      (if isUnreserved c then [c]
       else if c = 32 then [43]
       else [37, hexUpper (c >>> 4), hexUpper (c &&& 15)]) ++ queryEscape rest

/-- Hexadecimal digit value (either case). -/
def unhex (c : Nat) : Option Nat :=
  if 48 ≤ c ∧ c ≤ 57 then some (c - 48)
  else if 65 ≤ c ∧ c ≤ 70 then some (c - 55)
  else if 97 ≤ c ∧ c ≤ 102 then some (c - 87)
  else none

/-- `url.QueryUnescape`: `%XX` decodes, `+` becomes space, a malformed
percent sequence is an error. -/
def queryUnescape : List Nat → Option (List Nat)
  | [] => some []
  | 37 :: h1 :: h2 :: rest =>
      match unhex h1, unhex h2 with
      | some a, some b => (queryUnescape rest).map (fun r => (a * 16 + b) :: r)
      | _, _ => none
  | c :: rest =>
      if c = 37 then none
      else (queryUnescape rest).map (fun r => (if c = 43 then 32 else c) :: r)

/- ## Signature comparison and validMessage -/

/-- The byte-comparison loop of `validMessage`, instrumented with the
number of index comparisons it performs: `for i := 0; i < len(s); i++ if
s[i] != v[i] return false`.  Returns the boolean outcome of the loop and how
many byte pairs were compared before returning. -/
def bytesEqScan : List Nat → List Nat → Bool × Nat
  | a :: as, b :: bs =>
      if a = b then
        let r := bytesEqScan as bs
        (r.1, r.2 + 1)
      else (false, 1)
  | _, _ => (true, 0)

/-- Index of the first position where the two lists differ (their common
length if they agree everywhere). -/
def firstMismatchIdx : List Nat → List Nat → Nat
  | a :: as, b :: bs => if a = b then firstMismatchIdx as bs + 1 else 0
  | _, _ => 0

/-- `validMessage(key, sig, msg)`: base64url-decode `sig` (decode error
is `false`), recompute the HMAC-SHA256 of `msg`, reject on length
mismatch, else run the byte-comparison loop. -/
def validMessage (key : List Nat) (sig msg : GoStr) : Bool :=
  match b64decode sig with
  | none => false
  | some s =>
      let v := hmacSHA256 key msg
      if v.length ≠ s.length then false
      else (bytesEqScan s v).1

/- ## The user identity and its JSON serialization (encoding/json) -/

/-- The `user` identity struct: email, display name, picture URL. -/
structure user where
  Email : GoStr
  Name : GoStr
  Picture : GoStr
deriving DecidableEq, Repr

/-- Lowercase hexadecimal digit. -/
def hexLower (n : Nat) : Nat := if n < 10 then 48 + n else 87 + n

/-- Go JSON string escaping for one byte (HTML escaping on, as in
`json.NewEncoder`): quote, backslash, newline, carriage return and tab
get two-character escapes; other control bytes and the HTML characters
get a lowercase `\u00XX` escape; all other bytes pass through. -/
def jsonEscByte (b : Nat) : List Nat :=
  if b = 34 then [92, 34]
  else if b = 92 then [92, 92]
  else if b = 10 then [92, 110]
  else if b = 13 then [92, 114]
  else if b = 9 then [92, 116]
  else if b = 60 ∨ b = 62 ∨ b = 38 ∨ b < 32 then
    [92, 117, 48, 48, hexLower (b >>> 4), hexLower (b &&& 15)]
  else [b]

/-- A JSON string literal: quoted, escaped content. -/
def jsonString (s : GoStr) : GoStr := 34 :: (s.map jsonEscByte).flatten ++ [34]

/-- `json.NewEncoder(w).Encode(u)`: the object with the three exported
fields in declaration order, followed by the newline that `Encode`
appends. -/
def jsonEncodeUser (u : user) : GoStr :=
  goStr "\x7b" ++ jsonString (goStr "Email") ++ goStr ":" ++ jsonString u.Email ++
  goStr "," ++ jsonString (goStr "Name") ++ goStr ":" ++ jsonString u.Name ++
  goStr "," ++ jsonString (goStr "Picture") ++ goStr ":" ++ jsonString u.Picture ++
  goStr "\x7d" ++ [10]

/-- Skip JSON whitespace. -/
def skipWs : GoStr → GoStr
  | c :: rest =>
      if c = 32 ∨ c = 9 ∨ c = 10 ∨ c = 13 then skipWs rest else c :: rest
  | [] => []

/-- Parse the remainder of a JSON string literal (the opening quote
already consumed): returns the unescaped content and the rest of the
input.  Raw control bytes are rejected; `\uXXXX` escapes are modelled
for ASCII code points, which covers every escape the encoder emits. -/
def parseJString : GoStr → Option (GoStr × GoStr)
  | [] => none
  | 34 :: rest => some ([], rest)
  | 92 :: e :: rest =>
      if e = 34 then (parseJString rest).map (fun pr => (34 :: pr.1, pr.2))
      else if e = 92 then (parseJString rest).map (fun pr => (92 :: pr.1, pr.2))
      else if e = 47 then (parseJString rest).map (fun pr => (47 :: pr.1, pr.2))
      else if e = 98 then (parseJString rest).map (fun pr => (8 :: pr.1, pr.2))
      else if e = 102 then (parseJString rest).map (fun pr => (12 :: pr.1, pr.2))
      else if e = 110 then (parseJString rest).map (fun pr => (10 :: pr.1, pr.2))
      else if e = 114 then (parseJString rest).map (fun pr => (13 :: pr.1, pr.2))
      else if e = 116 then (parseJString rest).map (fun pr => (9 :: pr.1, pr.2))
      else if e = 117 then
        match rest with
        | h1 :: h2 :: h3 :: h4 :: rest2 =>
            match unhex h1, unhex h2, unhex h3, unhex h4 with
            | some a, some b, some c, some d =>
                let n := ((a * 16 + b) * 16 + c) * 16 + d
                if n < 128 then
                  (parseJString rest2).map (fun pr => (n :: pr.1, pr.2))
                else none
            | _, _, _, _ => none
        | _ => none
      else none
  | c :: rest =>
      if c < 32 then none
      else (parseJString rest).map (fun pr => (c :: pr.1, pr.2))

/-- Assign a decoded JSON member to the matching struct field; unknown
keys are skipped, as `encoding/json` does. -/
def applyField (u : user) (k v : GoStr) : user :=
  if k = goStr "Email" then { u with Email := v }
  else if k = goStr "Name" then { u with Name := v }
  else if k = goStr "Picture" then { u with Picture := v }
  else u

/-- Parse the members of a JSON object with string values (the fragment
`encoding/json` produces for the `user` struct), fuel-bounded by the
input length. -/
def parseMembers (fuel : Nat) (u : user) (s : GoStr) : Option (user × GoStr) :=
  match fuel with
  | 0 => none
  | f + 1 =>
      match skipWs s with
      | 34 :: rest =>
          match parseJString rest with
          | none => none
          | some (k, rest1) =>
              match skipWs rest1 with
              | 58 :: rest2 =>
                  match skipWs rest2 with
                  | 34 :: rest3 =>
                      match parseJString rest3 with
                      | none => none
                      | some (v, rest4) =>
                          match skipWs rest4 with
                          | 44 :: rest5 => parseMembers f (applyField u k v) rest5
                          | 125 :: rest5 => some (applyField u k v, rest5)
                          | _ => none
                  | _ => none
              | _ => none
      | _ => none

/-- `json.NewDecoder(r).Decode(&u)` for the `user` struct: decode one
JSON object from the front of the input (trailing bytes are left
unread); an incomplete or malformed object is an error. -/
def parseUserJson (s : GoStr) : Option user :=
  match skipWs s with
  | 123 :: rest =>
      match skipWs rest with
      | 125 :: _ => some ⟨[], [], []⟩
      | r => (parseMembers (s.length + 1) ⟨[], [], []⟩ r).map (fun pr => pr.1)
  | _ => none

/- ## Session token encode / decode -/

/-- `user.encode(key)`: JSON-serialize the user through a streaming
base64url encoder whose output feeds both the HMAC and the payload
buffer; the encoder is never closed, so only complete 3-byte groups
reach either.  The token is `base64(hmac),payload`. -/
def encodeUser (u : user) (key : List Nat) : GoStr :=
  let payload := b64encodeNoClose (jsonEncodeUser u)
  b64encode (hmacSHA256 key payload) ++ goStr "," ++ payload

/-- `strings.SplitN(c, ",", 2)`: split at the first comma; `none` when
there is no comma (the one-element split). -/
def splitFirstComma : GoStr → Option (GoStr × GoStr)
  | [] => none
  | c :: rest =>
      if c = 44 then some ([], rest)
      else (splitFirstComma rest).map (fun pr => (c :: pr.1, pr.2))

/-- `decodeUser(c, key)`: split at the first comma (no comma is an
error), verify the signature over the payload bytes, then base64-decode
the payload and JSON-decode the identity.  Every failure is `none`. -/
def decodeUser (c : GoStr) (key : List Nat) : Option user :=
  match splitFirstComma c with
  | none => none
  | some (sg, msg) =>
      if validMessage key sg msg then
        match b64decode msg with
        | none => none
        | some bytes => parseUserJson bytes
      else none

/- ## String helpers (strings.HasPrefix / strings.HasSuffix) -/

/-- `strings.HasPrefix(s, pre)`: does `s` start with `pre`? -/
def startsWithGo : GoStr → GoStr → Bool
  | _, [] => true
  | [], _ :: _ => false
  | a :: as, b :: bs => a == b && startsWithGo as bs

/-- `strings.HasSuffix(s, suf)`: does `s` end with `suf`?  This is the
raw whole-string suffix test the hub callback applies to the email. -/
def endsWithGo (s suf : GoStr) : Bool := startsWithGo s.reverse suf.reverse

/- ## Session cache (lilcache, external capability: get/put contract) -/

/-- The shared session cache: token-string key to decoded identity. -/
abbrev Cache := List (GoStr × user)

/-- `cache.Get(k)`: a hit returns the stored identity (`lilcache`
reports a miss through a zero timestamp). -/
def cacheGet (cache : Cache) (k : GoStr) : Option user :=
  match cache.find? (fun e => e.1 == k) with
  | some e => some e.2
  | none => none

/-- `cache.Put(k, u)`. -/
def cachePut (cache : Cache) (k : GoStr) (u : user) : Cache := (k, u) :: cache

/-- One observable cache interaction, recording the key it used. -/
inductive CacheOp where
  | get (k : GoStr)
  | put (k : GoStr)
deriving DecidableEq, Repr

/- ## Requests, responses and dispatcher identity resolution -/

/-- Fixed constants of the program: the session cookie name and the
bridge path (`userCookieKey` and the auth path constant). -/
def userCookieKey : GoStr := goStr "u"

/-- The fixed bridge/auth path of the program. -/
def authPath : GoStr := goStr "/__auth__/"

/-- An inbound request, reduced to the parts the handlers read: method,
path(+query), headers, the value of the `u` cookie when present, and
the body. -/
structure Request where
  method : GoStr
  path : GoStr
  headers : List (GoStr × GoStr)
  cookieU : Option GoStr
  body : GoStr
deriving DecidableEq, Repr

/-- An `http.Cookie` as the handlers construct it: name, value, path
and the MaxAge field. -/
structure CookieSet where
  name : GoStr
  value : GoStr
  path : GoStr
  maxAge : Nat
deriving DecidableEq, Repr

/-- A handler response, reduced to the parts the claims mention:
status, Content-Type, the cookie set (if any) and the Location header
(if any). -/
structure Response where
  status : Nat
  contentType : Option GoStr
  cookie : Option CookieSet
  location : Option GoStr
deriving DecidableEq, Repr

/-- `http.Error`: the status with a text/plain body; no cookie, no
Location. -/
def httpError (st : Nat) : Response :=
  { status := st, contentType := some (goStr "text/plain; charset=utf-8"),
    cookie := none, location := none }

/-- `userFrom(r, cache, key)`: read the `u` cookie, URL-unescape it,
try the cache under the unescaped value, else decode+verify; on a
successful decode the identity is stored back — under `c.Value`, the
raw (still escaped) cookie value, exactly as the source does.  Returns
the resolved identity, the updated cache, and the log of cache
interactions with the keys they used. -/
def userFrom (r : Request) (cache : Cache) (key : List Nat) :
    Option user × Cache × List CacheOp :=
  match r.cookieU with
  | none => (none, cache, [])
  | some cv =>
      if cv = [] then (none, cache, [])
      else
        match queryUnescape cv with
        | none => (none, cache, [])
        | some v =>
            match cacheGet cache v with
            | some u => (some u, cache, [CacheOp.get v])
            | none =>
                match decodeUser v key with
                | none => (none, cache, [CacheOp.get v])
                | some u =>
                    (some u, cachePut cache cv u,
                     [CacheOp.get v, CacheOp.put cv])

/- ## Bridge completion (serveHttpAuth) -/

/-- `serveHttpAuth`: requires a non-empty `c` and a `p` starting with
`/` (else 400); accepts `c` on a cache hit or a successful
decode+verify, setting the cookie to the URL-escaped `c` and
redirecting (302) to `p`; an invalid `c` is 403 with no redirect. -/
def serveHttpAuth (key : List Nat) (cache : Cache) (c p : GoStr) : Response :=
  if c = [] ∨ ¬ startsWithGo p (goStr "/") then httpError 400
  else
    let ok := match cacheGet cache c with
      | some _ => true
      | none => (decodeUser c key).isSome
    if ok then
      { status := 302, contentType := none,
        cookie := some ⟨userCookieKey, queryEscape c, goStr "/", 3600⟩,
        location := some p }
    else httpError 403

/- ## Reverse proxy forwarder (serveHttpProxy) -/

/-- A backend response: status, headers, body. -/
structure BackendResp where
  status : Nat
  headers : List (GoStr × GoStr)
  body : GoStr
deriving DecidableEq, Repr

/-- The outbound backend request the forwarder builds. -/
structure OutRequest where
  method : GoStr
  url : GoStr
  headers : List (GoStr × GoStr)
  body : GoStr
deriving DecidableEq, Repr

/-- How a proxied request ends: a redirect into the auth flow, an
abrupt handler termination (the source panics when the outbound call
fails), or the backend response copied back. -/
inductive ProxyOutcome where
  | redirect (loc : GoStr)
  | panicked
  | response (outbound : OutRequest) (resp : BackendResp)
deriving DecidableEq, Repr

/-- `copyHeaders(dst, src)`: `Add` every value of every key. -/
def copyHeaders (dst src : List (GoStr × GoStr)) : List (GoStr × GoStr) :=
  dst ++ src

/-- The static data of a per-host dispatcher. -/
structure Disp where
  dfrom : GoStr
  dto : GoStr
  domain : GoStr
  key : List Nat

/-- `urlFor(host, r)`: the request URL with the host substituted and
the scheme fixed to http. -/
def urlFor (host : GoStr) (r : Request) : GoStr :=
  goStr "http://" ++ host ++ r.path

/-- Modelled external capability (goauth2 `AuthCodeURL` plus the
appended `hd` hint of `disp.AuthCodeUrl`): the provider authorization
URL carrying the escaped state and organizational-domain hint. -/
def authCodeUrl (domain stateUrl : GoStr) : GoStr :=
  goStr "https://accounts.google.com/o/oauth2/auth?response_type=code&state=" ++
  queryEscape stateUrl ++ goStr "&" ++ goStr "hd=" ++ queryEscape domain

/-- The outbound request of `serveHttpProxy`: same method and body,
backend host substituted, inbound headers copied, then the two
identity-assertion headers added — the source sets both the Email and
the Name header to the URL-escaped email. -/
def outboundRequest (dto : GoStr) (r : Request) (u : user) : OutRequest :=
  { method := r.method, url := urlFor dto r,
    headers := copyHeaders [] r.headers ++
      [(goStr "X-Underpants-Email", queryEscape u.Email),
       (goStr "X-Underpants-Name", queryEscape u.Email)],
    body := r.body }

/-- `serveHttpProxy`: resolve the identity (redirecting into the auth
flow when there is none), build the outbound request, execute it
through the transport, and copy the backend response back; a transport
error makes the source panic, terminating the handler. -/
def serveHttpProxy (d : Disp) (r : Request) (cache : Cache)
    (transport : OutRequest → Except Unit BackendResp) :
    ProxyOutcome × Cache :=
  let res := userFrom r cache d.key
  match res.1 with
  | none =>
      (ProxyOutcome.redirect (authCodeUrl d.domain (urlFor d.dfrom r)), res.2.1)
  | some u =>
      let br := outboundRequest d.dto r u
      match transport br with
      | Except.error _ => (ProxyOutcome.panicked, res.2.1)
      | Except.ok bp => (ProxyOutcome.response br bp, res.2.1)

/- ## Hub callback and logout (setup) -/

/-- The parsed `state` URL (`url.Parse` result), reduced to the parts
the callback reads. -/
structure BackURL where
  host : GoStr
  upath : GoStr
  rawQuery : GoStr
deriving DecidableEq, Repr

/-- How the hub callback ends. -/
inductive HubOutcome where
  | forbidden
  | panicked
  | redirect (loc : GoStr) (cookie : CookieSet)
deriving DecidableEq, Repr

/-- The hub identity-provider callback: requires `code` and `state`
(else 403), a parsable state URL (else 403) and a successful code
exchange (else 403); a failed profile fetch panics in the source.  The
fetched email must end — as a raw string-suffix test — with the
configured domain.  On success the identity is encoded, pre-warmed
into the cache under the raw token, a cookie is set with the escaped
token, and the caller is redirected to the leaf bridge endpoint with
`c` and `p` (url.Values sorts the keys).  External calls enter as
inputs: `parsedState` is the `url.Parse` result, `exchangeOk` the
outcome of the code exchange, `profile` the fetched identity (`none`
when the fetch or its JSON decode fails, which the source turns into a
panic). -/
def hubCallback (domain : GoStr) (key : List Nat) (cache : Cache)
    (code stat : GoStr) (parsedState : Option BackURL)
    (exchangeOk : Bool) (profile : Option user) : HubOutcome × Cache :=
  if code = [] ∨ stat = [] then (HubOutcome.forbidden, cache)
  else
    match parsedState with
    | none => (HubOutcome.forbidden, cache)
    | some back =>
        if ¬ exchangeOk then (HubOutcome.forbidden, cache)
        else
          match profile with
          | none => (HubOutcome.panicked, cache)
          | some u =>
              if ¬ endsWithGo u.Email domain then (HubOutcome.forbidden, cache)
              else
                let v := encodeUser u key
                let p := back.upath ++
                  (if back.rawQuery = [] then [] else goStr "?" ++ back.rawQuery)
                (HubOutcome.redirect
                  (goStr "http://" ++ back.host ++ authPath ++ goStr "?" ++
                   goStr "c=" ++ queryEscape v ++ goStr "&p=" ++ queryEscape p)
                  ⟨userCookieKey, queryEscape v, goStr "/", 3600⟩,
                 cachePut cache v u)

/-- The logout handler: POST clears the cookie (empty value, max-age 0)
and answers 200 with a text/plain body; every other method is 405 with
no cookie. -/
def serveLogout (method : GoStr) : Response :=
  if method ≠ goStr "POST" then httpError 405
  else
    { status := 200, contentType := some (goStr "text/plain"),
      cookie := some ⟨userCookieKey, [], goStr "/", 0⟩,
      location := none }

example : sha256 (goStr "abc") =
    [0xba, 0x78, 0x16, 0xbf, 0x8f, 0x01, 0xcf, 0xea,
     0x41, 0x41, 0x40, 0xde, 0x5d, 0xae, 0x22, 0x23,
     0xb0, 0x03, 0x61, 0xa3, 0x96, 0x17, 0x7a, 0x9c,
     0xb4, 0x10, 0xff, 0x61, 0xf2, 0x00, 0x15, 0xad] := by decide

example : sha256 [] =
    [0xe3, 0xb0, 0xc4, 0x42, 0x98, 0xfc, 0x1c, 0x14,
     0x9a, 0xfb, 0xf4, 0xc8, 0x99, 0x6f, 0xb9, 0x24,
     0x27, 0xae, 0x41, 0xe4, 0x64, 0x9b, 0x93, 0x4c,
     0xa4, 0x95, 0x99, 0x1b, 0x78, 0x52, 0xb8, 0x55] := by decide

example : hmacSHA256 (goStr "Jefe") (goStr "what do ya want for nothing?") =
    [0x5b, 0xdc, 0xc1, 0x46, 0xbf, 0x60, 0x75, 0x4e,
     0x6a, 0x04, 0x24, 0x26, 0x08, 0x95, 0x75, 0xc7,
     0x5a, 0x00, 0x3f, 0x08, 0x9d, 0x27, 0x39, 0x83,
     0x9d, 0xec, 0x58, 0xb9, 0x64, 0xec, 0x38, 0x43] := by decide

/- ## General lemmas about the comparison loop -/

/-- For equal-length inputs the comparison loop accepts exactly when the
two byte lists are equal. -/
theorem bytesEqScan_fst_iff : ∀ (s v : List Nat), s.length = v.length →
    ((bytesEqScan s v).1 = true ↔ s = v) := by
  intro s
  induction s with
  | nil =>
      intro v h
      cases v with
      | nil => simp [bytesEqScan]
      | cons b bs => simp at h
  | cons a as ih =>
      intro v h
      cases v with
      | nil => simp at h
      | cons b bs =>
          have hlen : as.length = bs.length := by simpa using h
          by_cases hab : a = b
          · subst hab
            simpa [bytesEqScan] using ih bs hlen
          · simp [bytesEqScan, hab]

/-- For equal-length inputs the comparison loop compares all bytes when
the lists agree, and stops right after the first mismatching position
otherwise. -/
theorem bytesEqScan_snd_eq : ∀ (s v : List Nat), s.length = v.length →
    (bytesEqScan s v).2 =
      if s = v then s.length else firstMismatchIdx s v + 1 := by
  intro s
  induction s with
  | nil =>
      intro v h
      cases v with
      | nil => simp [bytesEqScan]
      | cons b bs => simp at h
  | cons a as ih =>
      intro v h
      cases v with
      | nil => simp at h
      | cons b bs =>
          have hlen : as.length = bs.length := by simpa using h
          by_cases hab : a = b
          · subst hab
            by_cases he : as = bs
            · subst he
              simp [bytesEqScan, ih as rfl]
            · simp [bytesEqScan, firstMismatchIdx, he, ih bs hlen]
          · simp [bytesEqScan, firstMismatchIdx, hab]

/-- A string without a comma splits into a single part, which
`decodeUser` rejects. -/
theorem splitFirstComma_eq_none (c : GoStr) (h : 44 ∉ c) :
    splitFirstComma c = none := by
  induction c with
  | nil => rfl
  | cons a rest ih =>
      have ha : ¬ (a = 44) := fun e => h (by simp [e])
      have hr : 44 ∉ rest := fun m => h (List.mem_cons_of_mem _ m)
      simp [splitFirstComma, ha, ih hr]

/- ## Concrete instances used by the claim theorems -/

/-- An identity whose display name differs from its email. -/
def uA : user := ⟨goStr "alice@org.com", goStr "Alice", []⟩

/-- A dispatcher for one route (the key is irrelevant for cache hits). -/
def dA : Disp := ⟨goStr "in.example.com", goStr "backend.example.com", goStr "org.com", []⟩

/-- A request to the leaf host carrying the session cookie `t`. -/
def reqA : Request := ⟨goStr "GET", goStr "/dashboard", [], some (goStr "t"), []⟩

/-- A cache already holding the identity for that cookie value. -/
def cacheA : Cache := [(goStr "t", uA)]

/-- A successful backend response. -/
def okResp : BackendResp := ⟨200, [], []⟩

/-- The HMAC-SHA256 digest of the empty message under the empty key. -/
def hmacEE : List Nat :=
  [182, 19, 103, 154, 8, 20, 217, 236, 119, 47, 149, 215, 120, 195, 95, 197,
   255, 22, 151, 196, 147, 113, 86, 83, 198, 199, 18, 20, 66, 146, 197, 173]

/-- Concrete evaluation of the digest used by the C2 instances. -/
theorem hmacSHA256_empty_eval : hmacSHA256 [] [] = hmacEE := by decide

/-- Thirty-two zero bytes: a wrong signature of the correct length. -/
def sigBytes0 : List Nat := List.replicate 32 0

/-- The base64url encoding of those 32 zero bytes. -/
def sig0 : GoStr := b64encode sigBytes0

/- ## Claim theorems -/

/-- Claim C1: on an authenticated proxied request the forwarder does
inject both identity-assertion headers, but the Name header carries the
URL-escaped email again instead of the display name: for the identity
with email alice@org.com and name Alice, both header values are the
escaped email, which differs from the escaped name. -/
theorem nameHeaderRepeatsEmail :
    (serveHttpProxy dA reqA cacheA (fun _ => Except.ok okResp)).1 =
      ProxyOutcome.response (outboundRequest dA.dto reqA uA) okResp ∧
    (outboundRequest dA.dto reqA uA).headers =
      [(goStr "X-Underpants-Email", queryEscape uA.Email),
       (goStr "X-Underpants-Name", queryEscape uA.Email)] ∧
    queryEscape uA.Email ≠ queryEscape uA.Name :=
  ⟨by decide, by decide, by decide⟩

/-- Claim C2, counterexample: a signature that base64url-decodes to 32
zero bytes has exactly the length of the recomputed HMAC, yet
verification returns false after comparing a single byte pair — the
scan does exit early on a content mismatch instead of scanning all 32
bytes. -/
theorem validMessageEarlyExitCounterexample :
    b64decode sig0 = some sigBytes0 ∧
    sigBytes0.length = (hmacSHA256 [] []).length ∧
    validMessage [] sig0 [] = false ∧
    (bytesEqScan sigBytes0 (hmacSHA256 [] [])).2 = 1 ∧
    (bytesEqScan sigBytes0 (hmacSHA256 [] [])).2 ≠ sigBytes0.length := by
  refine ⟨by decide, ?_, by decide, ?_, ?_⟩
  · rw [hmacSHA256_empty_eval]; decide
  · rw [hmacSHA256_empty_eval]; decide
  · rw [hmacSHA256_empty_eval]; decide

/-- Claim C2, amended: verification base64url-decodes the signature
(failing on decode error) and rejects immediately when the decoded
length differs from the recomputed HMAC length; for equal lengths it
accepts exactly when every byte matches, and on a content mismatch it
returns false early, after comparing exactly the bytes up to and
including the first mismatching position. -/
theorem validMessageCharacterization (key : List Nat) (sig msg : GoStr) :
    (b64decode sig = none → validMessage key sig msg = false) ∧
    (∀ s, b64decode sig = some s →
      (s.length ≠ (hmacSHA256 key msg).length → validMessage key sig msg = false) ∧
      (s.length = (hmacSHA256 key msg).length →
        ((validMessage key sig msg = true) ↔ s = hmacSHA256 key msg) ∧
        (s ≠ hmacSHA256 key msg →
          (bytesEqScan s (hmacSHA256 key msg)).2 =
            firstMismatchIdx s (hmacSHA256 key msg) + 1))) := by
  constructor
  · intro hn
    simp [validMessage, hn]
  · intro s hs
    constructor
    · intro hne
      have hv : (hmacSHA256 key msg).length ≠ s.length := fun e => hne e.symm
      simp [validMessage, hs, hv]
    · intro heq
      have hv : ¬ ((hmacSHA256 key msg).length ≠ s.length) := by
        intro hcon
        exact hcon heq.symm
      constructor
      · have : validMessage key sig msg = (bytesEqScan s (hmacSHA256 key msg)).1 := by
          simp [validMessage, hs, hv]
        rw [this]
        exact bytesEqScan_fst_iff s (hmacSHA256 key msg) heq
      · intro hne
        have := bytesEqScan_snd_eq s (hmacSHA256 key msg) heq
        simpa [hne] using this

/-- Claim C2, witness: applying the characterization at concrete
inputs — a signature outside the base64url alphabet is rejected, and
the all-zero signature of correct length is rejected. -/
theorem validMessageCharacterizationWitness :
    validMessage [] (goStr "*") [] = false ∧ validMessage [] sig0 [] = false := by
  constructor
  · exact (validMessageCharacterization [] (goStr "*") []).1 (by decide)
  · have h := ((validMessageCharacterization [] sig0 []).2 sigBytes0 (by decide)).2
    have hlen : sigBytes0.length = (hmacSHA256 [] []).length := by
      rw [hmacSHA256_empty_eval]; decide
    have hiff := (h hlen).1
    have hne : sigBytes0 ≠ hmacSHA256 [] [] := by
      rw [hmacSHA256_empty_eval]; decide
    cases hb : validMessage [] sig0 [] with
    | false => rfl
    | true => exact absurd (hiff.mp hb) hne

/-- The identity whose serialized JSON object (with the newline that
`Encode` appends) has length 38, which is 2 mod 3: the unclosed base64
encoder drops the final two bytes — the closing brace and the
newline — from the payload. -/
def u3 : user := ⟨goStr "aa", [], []⟩

/-- Claim C3: the encode/decode round trip fails: decoding the token
produced for the identity with email `aa` under the same key returns an
error, because the payload was truncated by the never-closed base64
encoder and the resulting JSON no longer parses. -/
theorem roundTripFailsOnTruncatedPayload :
    decodeUser (encodeUser u3 [0]) [0] = none ∧
    (jsonEncodeUser u3).length % 3 = 2 :=
  ⟨by decide, by decide⟩

/-- Claim C4: when an identity is resolved and the outbound backend
call fails at the transport level, the handler panics — it terminates
abruptly instead of answering 502/500. -/
theorem proxyTransportFailurePanics (d : Disp) (r : Request) (cache : Cache)
    (u : user) (hu : (userFrom r cache d.key).1 = some u) :
    (serveHttpProxy d r cache (fun _ => Except.error ())).1 =
      ProxyOutcome.panicked := by
  simp [serveHttpProxy, hu]

/-- Claim C4, witness: the concrete authenticated request with a
failing transport panics. -/
theorem proxyTransportFailurePanicsWitness :
    (serveHttpProxy dA reqA cacheA (fun _ => Except.error ())).1 =
      ProxyOutcome.panicked :=
  proxyTransportFailurePanics dA reqA cacheA uA (by decide)

/-- Claim C5: on the bridge-completion endpoint, a well-formed `p` and
a non-empty `c` that is neither a cache hit nor a decodable token yield
403 with no Location header and no cookie. -/
theorem bridgeInvalidTokenForbiddenNoRedirect (key : List Nat) (cache : Cache)
    (c p : GoStr) (hc : c ≠ []) (hp : startsWithGo p (goStr "/") = true)
    (hmiss : cacheGet cache c = none) (hdec : decodeUser c key = none) :
    (serveHttpAuth key cache c p).status = 403 ∧
    (serveHttpAuth key cache c p).location = none ∧
    (serveHttpAuth key cache c p).cookie = none := by
  simp [serveHttpAuth, hc, hp, hmiss, hdec, httpError]

/-- Claim C5, witness: the token `x` (no comma, hence undecodable) with
`p = /` on an empty cache is 403 with no redirect and no cookie. -/
theorem bridgeInvalidTokenForbiddenNoRedirectWitness :
    (serveHttpAuth [] [] (goStr "x") (goStr "/")).status = 403 ∧
    (serveHttpAuth [] [] (goStr "x") (goStr "/")).location = none ∧
    (serveHttpAuth [] [] (goStr "x") (goStr "/")).cookie = none :=
  bridgeInvalidTokenForbiddenNoRedirect [] [] (goStr "x") (goStr "/")
    (by decide) (by decide) (by decide) (by decide)

/-- The raw session token `encodeUser u6 key6`, written out as the
byte string it evaluates to (the first conjunct of the theorem checks
this equality against the source encoder). -/
def tok6 : GoStr :=
  goStr "uw-rb94UY30cREZNeKTX6ckEAgObqpFKCcS515HAGzg=,eyJFbWFpbCI6ImFAYiIsIk5hbWUiOiIiLCJQaWN0dXJlIjoiIn0K"

/-- The identity behind `tok6`. -/
def u6 : user := ⟨goStr "a@b", [], []⟩

/-- The key under which `tok6` verifies. -/
def key6 : List Nat := [0]

/-- A request whose session cookie carries the URL-escaped token, as
the bridge-completion handler sets it. -/
def req6 : Request := ⟨goStr "GET", goStr "/", [], some (queryEscape tok6), []⟩

/-- Claim C6: identity resolution gets with the unescaped token but,
after the cache miss and successful decode, puts the identity back
under the escaped cookie value — a different key (the token contains a
comma, so escaping changes it).  A later get with the raw token that
every get uses therefore still misses the entry just stored. -/
theorem cachePutKeyDiffersFromGetKey :
    tok6 = encodeUser u6 key6 ∧
    userFrom req6 [] key6 =
      (some u6, [(queryEscape tok6, u6)],
       [CacheOp.get tok6, CacheOp.put (queryEscape tok6)]) ∧
    queryEscape tok6 ≠ tok6 ∧
    cacheGet [(queryEscape tok6, u6)] tok6 = none :=
  ⟨by decide, by decide, by decide, by decide⟩

/-- Claim C7: the bridge-completion endpoint answers 400 when `c` is
empty or `p` does not start with a slash; and when `c` is valid (cache
hit or successful decode) it sets the cookie to the URL-escaped `c`
with path `/` and max-age 3600 and redirects (302) to `p`. -/
theorem bridgeCompletionBehavior (key : List Nat) (cache : Cache) (c p : GoStr) :
    ((c = [] ∨ startsWithGo p (goStr "/") = false) →
      serveHttpAuth key cache c p = httpError 400) ∧
    (c ≠ [] → startsWithGo p (goStr "/") = true →
      ((cacheGet cache c).isSome = true ∨ (decodeUser c key).isSome = true) →
      serveHttpAuth key cache c p =
        { status := 302, contentType := none,
          cookie := some ⟨userCookieKey, queryEscape c, goStr "/", 3600⟩,
          location := some p }) := by
  constructor
  · intro h
    rcases h with h | h
    · simp [serveHttpAuth, h]
    · simp [serveHttpAuth, h]
  · intro hc hp hv
    rcases hv with hv | hv
    · rcases Option.isSome_iff_exists.mp hv with ⟨u, hu⟩
      simp [serveHttpAuth, hc, hp, hu]
    · cases hcg : cacheGet cache c with
      | some u => simp [serveHttpAuth, hc, hp, hcg]
      | none => simp [serveHttpAuth, hc, hp, hcg, hv]

/-- Claim C7, witness: an empty `c` is 400; the cached token `t` with
`p = /d` sets the escaped cookie and redirects to `/d`. -/
theorem bridgeCompletionBehaviorWitness :
    serveHttpAuth [] cacheA [] (goStr "/d") = httpError 400 ∧
    serveHttpAuth [] cacheA (goStr "t") (goStr "/d") =
      { status := 302, contentType := none,
        cookie := some ⟨userCookieKey, queryEscape (goStr "t"), goStr "/", 3600⟩,
        location := some (goStr "/d") } :=
  ⟨(bridgeCompletionBehavior [] cacheA [] (goStr "/d")).1 (Or.inl rfl),
   (bridgeCompletionBehavior [] cacheA (goStr "t") (goStr "/d")).2
     (by decide) (by decide) (Or.inl (by decide))⟩

/-- Claim C8: POST to the logout endpoint answers 200 with a text/plain
body and sets the session cookie cleared (empty value, max-age 0);
every other method answers 405 and sets no cookie. -/
theorem logoutBehavior (method : GoStr) :
    (method = goStr "POST" →
      serveLogout method =
        { status := 200, contentType := some (goStr "text/plain"),
          cookie := some ⟨userCookieKey, [], goStr "/", 0⟩,
          location := none }) ∧
    (method ≠ goStr "POST" →
      (serveLogout method).status = 405 ∧ (serveLogout method).cookie = none) := by
  constructor
  · intro h
    subst h
    simp [serveLogout]
  · intro h
    simp [serveLogout, h, httpError]

/-- Claim C8, witness: POST gives 200 with the clearing cookie; GET
gives 405 with no cookie. -/
theorem logoutBehaviorWitness :
    serveLogout (goStr "POST") =
      { status := 200, contentType := some (goStr "text/plain"),
        cookie := some ⟨userCookieKey, [], goStr "/", 0⟩,
        location := none } ∧
    ((serveLogout (goStr "GET")).status = 405 ∧
     (serveLogout (goStr "GET")).cookie = none) :=
  ⟨(logoutBehavior (goStr "POST")).1 rfl,
   (logoutBehavior (goStr "GET")).2 (by decide)⟩

/-- Claim C9: decoding an empty token, or any token without a comma,
fails: the single-part split is rejected before any cryptography runs.
`decodeUser` is a total pure function of the token and the key alone —
as in the source it has no access to the session cache, so the failure
involves no cache interaction. -/
theorem decodeMalformedTokenFails (key : List Nat) (c : GoStr) (h : 44 ∉ c) :
    decodeUser c key = none := by
  simp [decodeUser, splitFirstComma_eq_none c h]

/-- Claim C9, witness: the empty token and the comma-free token `abc`
both fail to decode. -/
theorem decodeMalformedTokenFailsWitness :
    decodeUser [] [] = none ∧ decodeUser (goStr "abc") [] = none :=
  ⟨decodeMalformedTokenFails [] [] (by decide),
   decodeMalformedTokenFails [] (goStr "abc") (by decide)⟩

/-- An email of a foreign organization whose characters merely end with
the configured domain. -/
def u10 : user := ⟨goStr "alice@evilorg.com", [], []⟩

/-- The parsed state URL of the original leaf request. -/
def back10 : BackURL := ⟨goStr "in.example.com", goStr "/dash", []⟩

/-- The token the hub issues to `u10` under key `[0]` (checked against
the source encoder in the theorem). -/
def tok10 : GoStr :=
  goStr "i_pP-YThgxLrnu31DhI6PuHI1asYnZketfuuzq2iUQI=,eyJFbWFpbCI6ImFsaWNlQGV2aWxvcmcuY29tIiwiTmFtZSI6IiIsIlBpY3R1cmUiOiIi"

/-- The bridge redirect the hub issues for `u10`. -/
def loc10 : GoStr :=
  goStr "http://in.example.com/__auth__/?c=i_pP-YThgxLrnu31DhI6PuHI1asYnZketfuuzq2iUQI%3D%2CeyJFbWFpbCI6ImFsaWNlQGV2aWxvcmcuY29tIiwiTmFtZSI6IiIsIlBpY3R1cmUiOiIi&p=%2Fdash"

/-- Claim C10: the organizational-domain check is a raw suffix test on
the whole email, not anchored at the `@` boundary: `alice@evilorg.com`
ends with the configured domain `org.com` (though not with `@org.com`),
so the hub callback accepts it and proceeds — issuing the token,
pre-warming the cache and redirecting — instead of answering 403. -/
theorem domainCheckAcceptsForeignEmail :
    endsWithGo u10.Email (goStr "org.com") = true ∧
    endsWithGo u10.Email (goStr "@org.com") = false ∧
    tok10 = encodeUser u10 [0] ∧
    hubCallback (goStr "org.com") [0] [] (goStr "code")
        (goStr "http://in.example.com/dash") (some back10) true (some u10) =
      (HubOutcome.redirect loc10 ⟨userCookieKey, queryEscape tok10, goStr "/", 3600⟩,
       [(tok10, u10)]) :=
  ⟨by decide, by decide, by decide, by decide⟩
